import Mathlib

/-!
# Verification of the Vessify transaction text parser

Shallow embedding of `src/backend/src/services/userService.ts` (the
transaction-parser section): block segmentation, date / amount / balance
extraction, debit-credit classification, category detection, description
cleaning, schema validation, batch confidence and fallback strategy.

Modelling conventions:
* JavaScript strings are `List Char` (converted from Lean `String` via `.data`).
* JavaScript numbers are modelled as exact rationals `ℚ` (the source only
  manipulates small decimal literals, so binary floating point is abstracted
  to exact arithmetic).
* Each regular expression of the source is transcribed as a dedicated
  matcher over `List Char` with JavaScript semantics: leftmost match wins,
  alternation is ordered, quantifiers are greedy with backtracking.  Where a
  greedy quantifier is followed by a token disjoint from its character class
  no backtracking can change the result, and the matcher is written without
  it.
* `new Date(year, month, day)` is modelled by `jsMakeDate`, which performs
  the proleptic-Gregorian field normalisation ECMAScript specifies
  (out-of-range fields roll over; the constructor never throws), including
  the mapping of two-digit years to 1900+year.
-/

set_option maxRecDepth 10000

/-! ## Character and list helpers -/

/-- JavaScript `\s` restricted to the ASCII whitespace characters (the inputs
manipulated by the parser contain no exotic Unicode whitespace). -/
def isSpaceJS (c : Char) : Bool :=
  c = ' ' || c = '\t' || c = '\n' || c = '\r' || c = '\x0b' || c = '\x0c'

/-- Character class `[:\s]` used by the labelled amount/balance patterns. -/
def isColonSpace (c : Char) : Bool :=
  c = ':' || isSpaceJS c

/-- Character class `[:\s→]` used by the `Available Balance` pattern. -/
def isColonSpaceArrow (c : Char) : Bool :=
  c = ':' || isSpaceJS c || c = '→'

/-- Character class `[\d,]`. -/
def isDigitComma (c : Char) : Bool :=
  c.isDigit || c = ','

/-- JavaScript `toLowerCase` on the (ASCII) characters the parser compares. -/
def jsToLower (l : List Char) : List Char :=
  l.map Char.toLower

/-- Does `p` occur at the head of `l` (case-sensitive)? -/
def startsWithList : List Char → List Char → Bool
  | [], _ => true
  | _ :: _, [] => false
  | a :: asx, b :: bs => a = b && startsWithList asx bs

/-- JavaScript `String.prototype.includes`: `sub` occurs somewhere in `l`. -/
def containsSub (sub : List Char) (l : List Char) : Bool :=
  l.tails.any (fun t => startsWithList sub t)

/-- JavaScript `String.prototype.trim` (ASCII whitespace). -/
def jsTrim (l : List Char) : List Char :=
  ((l.dropWhile isSpaceJS).reverse.dropWhile isSpaceJS).reverse

/-- JavaScript `String.prototype.split` with a single-character separator. -/
def splitOn (sep : Char) : List Char → List (List Char)
  | [] => [[]]
  | c :: t =>
    let r := splitOn sep t
    if c = sep then [] :: r
    else
      match r with
      | [] => [[c]]
      | h :: t' => (c :: h) :: t'

/-- Join strings with a single space (`Array.prototype.join(' ')`). -/
def joinSpace : List (List Char) → List Char
  | [] => []
  | [l] => l
  | l :: ls => l ++ ' ' :: joinSpace ls

/-- Match a literal, case-sensitively; returns the rest of the input. -/
def matchLit : List Char → List Char → Option (List Char)
  | [], l => some l
  | _ :: _, [] => none
  | p :: ps, c :: cs => if p = c then matchLit ps cs else none

/-- Match a literal case-insensitively (regex `/i` flag); returns the rest. -/
def matchLitCI : List Char → List Char → Option (List Char)
  | [], l => some l
  | _ :: _, [] => none
  | p :: ps, c :: cs => if p.toLower = c.toLower then matchLitCI ps cs else none

/-- Ordered alternation of case-insensitive literals; returns the consumed
text and the rest (the first alternative that matches wins, as in JS). -/
def tryLitsCI : List String → List Char → Option (List Char × List Char)
  | [], _ => none
  | s :: ss, l =>
    match matchLitCI s.data l with
    | some r => some (l.take s.data.length, r)
    | none => tryLitsCI ss l

/-- Greedy `p+`: at least one character satisfying `p`; returns consumed and
rest. -/
def munch1 (p : Char → Bool) (l : List Char) : Option (List Char × List Char) :=
  let s := l.span p
  if s.1.isEmpty then none else some s

/-- Greedy `p*`: zero or more characters satisfying `p`. -/
def munch0 (p : Char → Bool) (l : List Char) : List Char × List Char :=
  l.span p

/-- Greedy `\d{0,n}`: up to `n` digits. -/
def digitsUpTo : Nat → List Char → List Char × List Char
  | 0, l => ([], l)
  | _ + 1, [] => ([], [])
  | n + 1, c :: t =>
    if c.isDigit then
      let (ds, r) := digitsUpTo n t
      (c :: ds, r)
    else ([], c :: t)

/-- The `\d{n}`: exactly `n` digits (more may follow in the input). -/
def exactDigits (n : Nat) (l : List Char) : Option (List Char × List Char) :=
  let (ds, r) := digitsUpTo n l
  if ds.length = n then some (ds, r) else none

/-- Scan start positions left to right and return the first successful match
(JavaScript unanchored regex search: leftmost start position wins). -/
def firstMatch {α : Type} (m : List Char → Option α) : List Char → Option α
  | [] => m []
  | c :: t =>
    match m (c :: t) with
    | some r => some r
    | none => firstMatch m t

/-- Numeric value of a digit string (`parseInt` on an all-digit capture). -/
def parseIntDigits (ds : List Char) : Nat :=
  ds.foldl (fun a c => 10 * a + (c.toNat - ('0').toNat)) 0

/-- The `String.prototype.replace(/,/g, "")`. -/
def stripCommas (l : List Char) : List Char :=
  l.filter (fun c => c ≠ ',')

/-! ## Kernel-computable rational arithmetic

The `Rat` field operations of the ambient library are `@[irreducible]`, so the
embedding computes through `mkRat` / `Rat.divInt` (which reduce in the kernel)
and the bridge lemmas below connect them to the ordinary operations used in
the theorem statements. -/

/-- Computable addition on `ℚ` (equal to `+`, see `qAdd_eq`). -/
def qAdd (a b : ℚ) : ℚ :=
  mkRat (a.num * b.den + b.num * a.den) (a.den * b.den)

/-- Computable multiplication on `ℚ` (equal to `*`, see `qMul_eq`). -/
def qMul (a b : ℚ) : ℚ :=
  mkRat (a.num * b.num) (a.den * b.den)

/-- Computable division on `ℚ` (equal to `/`, see `qDiv_eq`). -/
def qDiv (a b : ℚ) : ℚ :=
  Rat.divInt (a.num * b.den) (b.num * a.den)

/-- Computable absolute value on `ℚ` (JavaScript `Math.abs`). -/
def jsAbs (q : ℚ) : ℚ :=
  if q < 0 then -q else q

/-- Computable minimum on `ℚ` (JavaScript `Math.min`). -/
def qMin (a b : ℚ) : ℚ :=
  if a ≤ b then a else b

theorem qAdd_eq (a b : ℚ) : qAdd a b = a + b := by
  have ha : (a.den : ℚ) ≠ 0 := by
    exact_mod_cast a.den_nz
  have hb : (b.den : ℚ) ≠ 0 := by
    exact_mod_cast b.den_nz
  rw [qAdd, Rat.mkRat_eq_div]
  push_cast
  conv_rhs => rw [← Rat.num_div_den a, ← Rat.num_div_den b]
  field_simp

theorem qMul_eq (a b : ℚ) : qMul a b = a * b := by
  have ha : (a.den : ℚ) ≠ 0 := by
    exact_mod_cast a.den_nz
  have hb : (b.den : ℚ) ≠ 0 := by
    exact_mod_cast b.den_nz
  rw [qMul, Rat.mkRat_eq_div]
  push_cast
  conv_rhs => rw [← Rat.num_div_den a, ← Rat.num_div_den b]
  field_simp

theorem qDiv_eq (a b : ℚ) : qDiv a b = a / b := by
  rcases eq_or_ne b 0 with rfl | hb
  · simp [qDiv, Rat.divInt_eq_div]
  · have ha : (a.den : ℚ) ≠ 0 := by
      exact_mod_cast a.den_nz
    have hbn : (b.num : ℚ) ≠ 0 := by
      exact_mod_cast Rat.num_ne_zero.mpr hb
    have hbd : (b.den : ℚ) ≠ 0 := by
      exact_mod_cast b.den_nz
    rw [qDiv, Rat.divInt_eq_div]
    push_cast
    conv_rhs => rw [← Rat.num_div_den a, ← Rat.num_div_den b]
    rw [div_div_div_comm]
    field_simp

theorem jsAbs_eq (q : ℚ) : jsAbs q = |q| := by
  rw [jsAbs, abs]
  rcases lt_or_le q 0 with h | h
  · rw [if_pos h, max_eq_right (by linarith)]
  · rw [if_neg (not_lt.mpr h), max_eq_left (by linarith)]

theorem qMin_eq (a b : ℚ) : qMin a b = min a b := by
  rw [qMin, min_def]

theorem jsAbs_nonneg (q : ℚ) : 0 ≤ jsAbs q := by
  rw [jsAbs_eq]
  exact abs_nonneg q

/-- JavaScript `parseFloat` on the shapes the parser captures: optional sign,
digit run, optional fraction; `none` models `NaN` (no digits at all).
Trailing characters are ignored, as `parseFloat` does; the decimal value is
computed exactly. -/
def jsParseFloat (l : List Char) : Option ℚ :=
  let sr : Int × List Char :=
    match l with
    | '-' :: r => (-1, r)
    | '+' :: r => (1, r)
    | _ => (1, l)
  let ip := sr.2.span Char.isDigit
  let fp : List Char :=
    match ip.2 with
    | '.' :: r2 => (r2.span Char.isDigit).1
    | _ => []
  if ip.1.isEmpty && fp.isEmpty then none
  else
    some (mkRat (sr.1 * ((parseIntDigits ip.1 : Int) * (10 : Int) ^ fp.length +
      (parseIntDigits fp : Int))) ((10 : Nat) ^ fp.length))

/-! ## The ECMAScript `Date` constructor (proleptic Gregorian calendar) -/

/-- A calendar date as JavaScript `Date` exposes it (year / month 1-12 /
day 1-31 after normalisation). -/
structure JsDate where
  year : Int
  month : Int
  day : Int
deriving DecidableEq

/-- Days since 1970-01-01 of a civil date (Howard Hinnant's `days_from_civil`,
the algorithm the ECMAScript `MakeDay` specification computes). -/
def daysFromCivil (y m d : Int) : Int :=
  let y' := if m ≤ 2 then y - 1 else y
  let era := Int.fdiv y' 400
  let yoe := y' - era * 400
  let mp := if 2 < m then m - 3 else m + 9
  let doy := Int.fdiv (153 * mp + 2) 5 + d - 1
  let doe := yoe * 365 + Int.fdiv yoe 4 - Int.fdiv yoe 100 + doy
  era * 146097 + doe - 719468

/-- Civil date of a day count since 1970-01-01 (`civil_from_days`). -/
def civilFromDays (z0 : Int) : JsDate :=
  let z := z0 + 719468
  let era := Int.fdiv z 146097
  let doe := z - era * 146097
  let yoe := Int.fdiv (doe - Int.fdiv doe 1460 + Int.fdiv doe 36524 -
    Int.fdiv doe 146096) 365
  let y := yoe + era * 400
  let doy := doe - (365 * yoe + Int.fdiv yoe 4 - Int.fdiv yoe 100)
  let mp := Int.fdiv (5 * doy + 2) 153
  let d := doy - Int.fdiv (153 * mp + 2) 5 + 1
  let m := if mp < 10 then mp + 3 else mp - 9
  ⟨if m ≤ 2 then y + 1 else y, m, d⟩

/-- The `new Date(year, month, day)`: two-digit years map to 1900+year, the
0-based month and the day are normalised by rollover; never throws. -/
def jsMakeDate (year month day : Int) : JsDate :=
  let y0 : Int := if 0 ≤ year ∧ year ≤ 99 then 1900 + year else year
  let ym : Int := y0 * 12 + month
  let y := Int.fdiv ym 12
  let m0 := ym - 12 * y
  civilFromDays (daysFromCivil y (m0 + 1) 1 + (day - 1))

example : jsMakeDate 2025 11 11 = ⟨2025, 12, 11⟩ := by decide
example : jsMakeDate 2025 11 32 = ⟨2026, 1, 1⟩ := by decide
example : jsMakeDate 2025 12 5 = ⟨2026, 1, 5⟩ := by decide
example : jsMakeDate 2024 1 29 = ⟨2024, 2, 29⟩ := by decide
example : qMul (mkRat 19 20) (mkRat 9 10) = mkRat 171 200 := by decide
example : jsParseFloat ("18420.50".data) = some (mkRat 36841 2) := by decide
example : jsParseFloat ("-420.00".data) = some (-420) := by decide
example : jsParseFloat ([',']) = none := by decide
example : (mkRat 36841 2 : ℚ) = 18420.50 := by norm_num [Rat.mkRat_eq_div]

/-! ## Date patterns (`datePatterns` of the source)

Each matcher transcribes one regex, matching at the current position and
returning the capture groups plus the rest of the input; `firstMatch` adds
the unanchored left-to-right scan. -/

/-- Greedy `(\d{1,2})` backtracking into its continuation `k` (two digits are
tried first, then one, as JavaScript does). -/
def oneOrTwoDigits {α : Type} (k : List Char → List Char → Option α)
    (l : List Char) : Option α :=
  match l with
  | c1 :: t1 =>
    if c1.isDigit then
      let two : Option α :=
        match t1 with
        | c2 :: t2 => if c2.isDigit then k [c1, c2] t2 else none
        | [] => none
      match two with
      | some r => some r
      | none => k [c1] t1
    else none
  | [] => none

/-- The month-name alternation `(Jan|Feb|...|Dec)` with the `/i` flag. -/
def monthAbbrevs : List String :=
  ["Jan", "Feb", "Mar", "Apr", "May", "Jun", "Jul", "Aug", "Sep", "Oct", "Nov", "Dec"]

/-- The `(\d{1,2})\s+(Jan|...|Dec)\s+(\d{4})` with `/i` (pattern 0). -/
def matchDMonY (l : List Char) :
    Option ((List Char × List Char × List Char) × List Char) :=
  oneOrTwoDigits (fun day r =>
    match munch1 isSpaceJS r with
    | some (_, r1) =>
      match tryLitsCI monthAbbrevs r1 with
      | some (mon, r2) =>
        match munch1 isSpaceJS r2 with
        | some (_, r3) =>
          match exactDigits 4 r3 with
          | some (y, r4) => some ((day, mon, y), r4)
          | none => none
        | none => none
      | none => none
    | none => none) l

/-- The `(\d{1,2})\/(\d{1,2})\/(\d{4})` (pattern 1, day/month/year). -/
def matchSlashDate (l : List Char) :
    Option ((List Char × List Char × List Char) × List Char) :=
  oneOrTwoDigits (fun d r =>
    match r with
    | '/' :: r1 =>
      oneOrTwoDigits (fun m r2 =>
        match r2 with
        | '/' :: r3 =>
          match exactDigits 4 r3 with
          | some (y, r4) => some ((d, m, y), r4)
          | none => none
        | _ => none) r1
    | _ => none) l

/-- The `(\d{4})-(\d{2})-(\d{2})` (pattern 2, ISO order). -/
def matchISODate (l : List Char) :
    Option ((List Char × List Char × List Char) × List Char) :=
  match exactDigits 4 l with
  | some (y, r1) =>
    match r1 with
    | '-' :: r2 =>
      match exactDigits 2 r2 with
      | some (m, r3) =>
        match r3 with
        | '-' :: r4 =>
          match exactDigits 2 r4 with
          | some (d, r5) => some ((y, m, d), r5)
          | none => none
        | _ => none
      | none => none
    | _ => none
  | none => none

/-- The `(\d{2})-(\d{2})-(\d{4})` (pattern 3, day-month-year). -/
def matchDashDate (l : List Char) :
    Option ((List Char × List Char × List Char) × List Char) :=
  match exactDigits 2 l with
  | some (d, r1) =>
    match r1 with
    | '-' :: r2 =>
      match exactDigits 2 r2 with
      | some (m, r3) =>
        match r3 with
        | '-' :: r4 =>
          match exactDigits 4 r4 with
          | some (y, r5) => some ((d, m, y), r5)
          | none => none
        | _ => none
      | none => none
    | _ => none
  | none => none

/-- The `monthMap` of the source (lower-cased month name to 0-based month). -/
def monthMap : List (String × Nat) :=
  [("jan", 0), ("feb", 1), ("mar", 2), ("apr", 3), ("may", 4), ("jun", 5),
   ("jul", 6), ("aug", 7), ("sep", 8), ("oct", 9), ("nov", 10), ("dec", 11)]

/-- Look up a lower-cased month name in `monthMap`. -/
def lookupMonth (m : List Char) : Option Nat :=
  (monthMap.find? (fun p => p.1.data = m)).map (·.2)

/-- The `parseDate` of the source: try the four date patterns in order, the first
pattern that matches anywhere in the text wins, and its captures are fed to
the `Date` constructor (which normalises out-of-range values and never
throws, making the source's `try/catch` dead code). -/
def parseDate (l : List Char) : Option JsDate :=
  match firstMatch matchDMonY l with
  | some ((d, mon, y), _) =>
    match lookupMonth (jsToLower mon) with
    | some m => some (jsMakeDate (parseIntDigits y) (Int.ofNat m) (parseIntDigits d))
    | none => none
  | none =>
    match firstMatch matchSlashDate l with
    | some ((d, m, y), _) =>
      some (jsMakeDate (parseIntDigits y) ((parseIntDigits m : Int) - 1) (parseIntDigits d))
    | none =>
      match firstMatch matchISODate l with
      | some ((y, m, d), _) =>
        some (jsMakeDate (parseIntDigits y) ((parseIntDigits m : Int) - 1) (parseIntDigits d))
      | none =>
        match firstMatch matchDashDate l with
        | some ((d, m, y), _) =>
          some (jsMakeDate (parseIntDigits y) ((parseIntDigits m : Int) - 1) (parseIntDigits d))
        | none => none

/-! ## Amount patterns (`amountPatterns` of the source) -/

/-- The `(?:,\d{3})*` (greedy; nothing mandatory follows it in any pattern that
uses it, so its greedy result is final); returns consumed and rest. -/
def starCommaD3 : List Char → List Char × List Char
  | ',' :: a :: b :: c :: r =>
    if a.isDigit && b.isDigit && c.isDigit then
      let (cs, rest) := starCommaD3 r
      (',' :: a :: b :: c :: cs, rest)
    else ([], ',' :: a :: b :: c :: r)
  | l => ([], l)

/-- The `(?:\.\d{2})?` (greedy optional; nothing mandatory follows it). -/
def optDotD2 : List Char → List Char × List Char
  | '.' :: a :: b :: r =>
    if a.isDigit && b.isDigit then (['.', a, b], r)
    else ([], '.' :: a :: b :: r)
  | l => ([], l)

/-- The `\d{1,3}(?:,\d{3})*(?:\.\d{2})?` (`bound = some 3`) or
`\d{1,}(?:,\d{3})*(?:\.\d{2})?` (`bound = none`). -/
def capNumGroups (bound : Option Nat) (l : List Char) :
    Option (List Char × List Char) :=
  let first : Option (List Char × List Char) :=
    match bound with
    | some n =>
      let (ds, r) := digitsUpTo n l
      if ds.isEmpty then none else some (ds, r)
    | none => munch1 Char.isDigit l
  match first with
  | some (ds, r) =>
    let (cs, r2) := starCommaD3 r
    let (fs, r3) := optDotD2 r2
    some (ds ++ cs ++ fs, r3)
  | none => none

/-- The `-?` followed by a digit group: if the optional sign is taken but no digit
follows, the sign-less alternative fails at the same character, as in JS. -/
def capSigned (bound : Option Nat) (l : List Char) :
    Option (List Char × List Char) :=
  match l with
  | '-' :: r => (capNumGroups bound r).map (fun p => ('-' :: p.1, p.2))
  | _ => capNumGroups bound l

/-- The `[\d,]+(?:\.\d{2})?` (the capture of the currency-prefixed patterns). -/
def capUnsigned (l : List Char) : Option (List Char × List Char) :=
  match munch1 isDigitComma l with
  | some (ds, r) =>
    let (fs, r2) := optDotD2 r
    some (ds ++ fs, r2)
  | none => none

/-- Amount pattern 0: `Amount[:\s]+(-?\d{1,3}(?:,\d{3})*(?:\.\d{2})?)` `/i`. -/
def mAmountLabeled (l : List Char) : Option (List Char × List Char) :=
  match matchLitCI ("Amount".data) l with
  | some r1 =>
    match munch1 isColonSpace r1 with
    | some (_, r2) => capSigned (some 3) r2
    | none => none
  | none => none

/-- Amount pattern 1: `₹\s*([\d,]+(?:\.\d{2})?)`. -/
def mRupee (l : List Char) : Option (List Char × List Char) :=
  match l with
  | '₹' :: r => capUnsigned (munch0 isSpaceJS r).2
  | _ => none

/-- Amount pattern 2: `Rs\.?\s*([\d,]+(?:\.\d{2})?)` `/i`; the optional dot is
greedy and backtracks. -/
def mRs (l : List Char) : Option (List Char × List Char) :=
  match matchLitCI ("Rs".data) l with
  | some r1 =>
    match r1 with
    | '.' :: r2 =>
      match capUnsigned (munch0 isSpaceJS r2).2 with
      | some p => some p
      | none => capUnsigned (munch0 isSpaceJS r1).2
    | _ => capUnsigned (munch0 isSpaceJS r1).2
  | none => none

/-- Amount pattern 3: `\$\s*([\d,]+(?:\.\d{2})?)`. -/
def mDollar (l : List Char) : Option (List Char × List Char) :=
  match l with
  | '$' :: r => capUnsigned (munch0 isSpaceJS r).2
  | _ => none

/-- Core of amount pattern 4 without its prefix:
`([\d,]+\.\d{2})(?:\s+(?:Dr|Cr|debit|credit))` `/i`.  `[\d,]+` is greedy and
cannot backtrack usefully (shedding a character re-exposes a `[\d,]`
character where a `.` is required). -/
def mBareCore (l : List Char) : Option (List Char × List Char) :=
  match munch1 isDigitComma l with
  | some (ds, r1) =>
    match r1 with
    | '.' :: r2 =>
      match exactDigits 2 r2 with
      | some (fs, r3) =>
        match munch1 isSpaceJS r3 with
        | some (_, r4) =>
          match tryLitsCI ["Dr", "Cr", "debit", "credit"] r4 with
          | some (_, r5) => some (ds ++ '.' :: fs, r5)
          | none => none
        | none => none
      | none => none
    | _ => none
  | none => none

/-- Amount pattern 4 with its `(?:^|[^\d])` prefix: at position 0 the `^`
alternative is tried first, then every start position tries the
one-non-digit-character alternative, in JS scan order. -/
def mBareFull (l : List Char) : Option (List Char × List Char) :=
  match mBareCore l with
  | some r => some r
  | none =>
    firstMatch (fun s =>
      match s with
      | c :: r => if c.isDigit then none else mBareCore r
      | [] => none) l

/-- The ordered `amountPatterns` table, each entry already wrapped into a
whole-text search. -/
def amountPatterns : List (List Char → Option (List Char × List Char)) :=
  [firstMatch mAmountLabeled, firstMatch mRupee, firstMatch mRs,
   firstMatch mDollar, mBareFull]

/-- The result record of `parseAmount`. -/
structure AmountData where
  amount : ℚ
  confidence : ℚ
deriving DecidableEq

/-- The `for` loop of `parseAmount`: first pattern whose capture (with commas
stripped) parses to a number wins; a `NaN` capture falls through to the next
pattern. -/
def goAmount : List (List Char → Option (List Char × List Char)) → List Char →
    Option AmountData
  | [], _ => none
  | m :: ms, l =>
    match m l with
    | some (cap, _) =>
      match jsParseFloat (stripCommas cap) with
      | some q => some ⟨jsAbs q, mkRat 19 20⟩
      | none => goAmount ms l
    | none => goAmount ms l

/-- The `parseAmount` of the source: absolute value of the first parsed capture,
fixed confidence 0.95. -/
def parseAmount (l : List Char) : Option AmountData :=
  goAmount amountPatterns l

example : parseAmount ("Amount: -420.00".data) = some ⟨420, mkRat 19 20⟩ := by decide
example : parseAmount (" -420".data) = none := by decide
example : parseAmount ("txn ₹2,999.00 Dr".data) = some ⟨2999, mkRat 19 20⟩ := by decide
example : parseAmount ("bare 2,999.00 Dr".data) = some ⟨2999, mkRat 19 20⟩ := by decide
example : parseAmount ("Amount: 1234.56".data) = some ⟨123, mkRat 19 20⟩ := by decide
example : parseDate ("Date: 11 Dec 2025".data) = some ⟨2025, 12, 11⟩ := by decide
example : parseDate ("2025-12-11, -420".data) = some ⟨2025, 12, 11⟩ := by decide
example : parseDate ("32 Dec 2025".data) = some ⟨2026, 1, 1⟩ := by decide
example : parseDate ("12/11/2025 → ₹1,250.00".data) = some ⟨2025, 11, 12⟩ := by decide
example : parseDate ("This is random text".data) = none := by decide

/-! ## Balance patterns (`balancePatterns` of `extractBalance`) -/

/-- The common tail `(?:₹|Rs\.?)?[\s]*(-?\d{1,}(?:,\d{3})*(?:\.\d{2})?)` of
the balance patterns: the optional currency group tries `₹`, then `Rs.`,
then `Rs`, then absence, each continuing with `[\s]*` and the capture. -/
def balTail (l : List Char) : Option (List Char × List Char) :=
  let cap := fun (r : List Char) => capSigned none (munch0 isSpaceJS r).2
  match l with
  | '₹' :: r =>
    match cap r with
    | some p => some p
    | none => cap l
  | _ =>
    match matchLitCI ("Rs".data) l with
    | some r1 =>
      match r1 with
      | '.' :: r2 =>
        match cap r2 with
        | some p => some p
        | none =>
          match cap r1 with
          | some p => some p
          | none => cap l
      | _ =>
        match cap r1 with
        | some p => some p
        | none => cap l
    | none => cap l

/-- Balance pattern 0:
`Balance[:\s]+(?:after\s+transaction[:\s]+)?(?:₹|Rs\.?)?[\s]*(-?\d{1,}...)` `/i`. -/
def mBalance (l : List Char) : Option (List Char × List Char) :=
  match matchLitCI ("Balance".data) l with
  | some r1 =>
    match munch1 isColonSpace r1 with
    | some (_, r2) =>
      let afterGroup : Option (List Char) :=
        match matchLitCI ("after".data) r2 with
        | some r3 =>
          match munch1 isSpaceJS r3 with
          | some (_, r4) =>
            match matchLitCI ("transaction".data) r4 with
            | some r5 =>
              match munch1 isColonSpace r5 with
              | some (_, r6) => some r6
              | none => none
            | none => none
          | none => none
        | none => none
      match afterGroup with
      | some r6 =>
        match balTail r6 with
        | some p => some p
        | none => balTail r2
      | none => balTail r2
    | none => none
  | none => none

/-- Balance pattern 1:
`Available[:\s]+(?:Balance)?[:\s→]*(?:₹|Rs\.?)?[\s]*(-?\d{1,}...)` `/i`. -/
def mAvailable (l : List Char) : Option (List Char × List Char) :=
  match matchLitCI ("Available".data) l with
  | some r1 =>
    match munch1 isColonSpace r1 with
    | some (_, r2) =>
      let cont := fun (r : List Char) => balTail (munch0 isColonSpaceArrow r).2
      match matchLitCI ("Balance".data) r2 with
      | some r3 =>
        match cont r3 with
        | some p => some p
        | none => cont r2
      | none => cont r2
    | none => none
  | none => none

/-- Balance pattern 2: `Bal[\s]+(-?\d{1,}(?:,\d{3})*(?:\.\d{2})?)` `/i`. -/
def mBal (l : List Char) : Option (List Char × List Char) :=
  match matchLitCI ("Bal".data) l with
  | some r1 =>
    match munch1 isSpaceJS r1 with
    | some (_, r2) => capSigned none r2
    | none => none
  | none => none

/-- The `extractBalance` of the source: first pattern (in table order) that
matches anywhere wins; its capture is comma-stripped and parsed. -/
def extractBalance (l : List Char) : Option ℚ :=
  match firstMatch mBalance l with
  | some (cap, _) => jsParseFloat (stripCommas cap)
  | none =>
    match firstMatch mAvailable l with
    | some (cap, _) => jsParseFloat (stripCommas cap)
    | none =>
      match firstMatch mBal l with
      | some (cap, _) => jsParseFloat (stripCommas cap)
      | none => none

example : extractBalance ("Balance after transaction: 18,420.50".data) =
    some (mkRat 36841 2) := by decide
example : extractBalance ("Available Balance → ₹17,170.50".data) =
    some (mkRat 34341 2) := by decide
example : extractBalance ("x Bal 14171.50 y".data) = some (mkRat 28343 2) := by decide
example : extractBalance ("Balance: -500.00".data) = some (-500) := by decide
example : extractBalance ("no balance here 42".data) = none := by decide

/-! ## Transaction type classification (`determineTransactionType`) -/

/-- The transaction type enum of the source. -/
inductive TxnType where
  | debit
  | credit
deriving DecidableEq

/-- The first short-circuit test of `determineTransactionType`: the
case-sensitive regex `Amount[:\s]+` followed by a minus sign. -/
def testAmountDash (l : List Char) : Bool :=
  (firstMatch (fun s =>
    match matchLit ("Amount".data) s with
    | some r1 =>
      match munch1 isColonSpace r1 with
      | some (_, r2) =>
        match r2 with
        | '-' :: _ => some ()
        | _ => none
      | none => none
    | none => none) l).isSome

/-- The `-\d{1,3}(?:,\d{3})*(?:\.\d{2})?` at one position (everything after the
first digit is greedy and optional, so it cannot fail the match). -/
def matchNegNum (s : List Char) : Option (List Char) :=
  match s with
  | '-' :: r => (capNumGroups (some 3) r).map (·.2)
  | _ => none

/-- The second short-circuit test: the regex `-\d{1,3}(?:,\d{3})*(?:\.\d{2})?`
tested anywhere in the text. -/
def testNegNum (l : List Char) : Bool :=
  (firstMatch matchNegNum l).isSome

/-- The `debitIndicators` of the source. -/
def debitIndicators : List String :=
  ["debit", "paid", "spent", "charges", "debited", "withdrawn", "dr", "-"]

/-- The `creditIndicators` of the source; note that the last entry is the
two-character string backslash-plus, tested by substring containment. -/
def creditIndicators : List String :=
  ["credit", "deposited", "received", "refund", "credited", "cr", "\\+"]

/-- Number of debit indicators contained in the lower-cased text. -/
def debitScore (l : List Char) : Nat :=
  (debitIndicators.filter (fun k => containsSub k.data (jsToLower l))).length

/-- Number of credit indicators contained in the lower-cased text. -/
def creditScore (l : List Char) : Nat :=
  (creditIndicators.filter (fun k => containsSub k.data (jsToLower l))).length

/-- The `determineTransactionType` of the source: the minus-sign checks
short-circuit to debit; otherwise debit exactly when the debit score strictly
exceeds the credit score. -/
def determineTransactionType (l : List Char) : TxnType :=
  if testAmountDash l || testNegNum l then TxnType.debit
  else if creditScore l < debitScore l then TxnType.debit
  else TxnType.credit

example : determineTransactionType ("Amount: -420.00".data) = TxnType.debit := by decide
example : determineTransactionType ("2025-12-10 credited received".data) =
    TxnType.debit := by decide
example : determineTransactionType ("Deposit: $100".data) = TxnType.credit := by decide
example : determineTransactionType ("hello".data) = TxnType.credit := by decide
example : determineTransactionType ("Spent on coffee".data) = TxnType.debit := by decide

/-! ## Categorisation (`categorizeTransaction`) -/

/-- The `categoryKeywords` of the source, in insertion order. -/
def categoryKeywords : List (String × List String) :=
  [("food", ["starbucks", "coffee", "restaurant", "pizza", "burger", "food", "cafe"]),
   ("transport", ["uber", "taxi", "ola", "bus", "train", "flight", "airport"]),
   ("shopping", ["amazon", "flipkart", "mall", "store", "shop", "order"]),
   ("utilities", ["electric", "water", "gas", "internet", "phone", "bill"])]

/-- The `categorizeTransaction` of the source: first category (in table order)
one of whose keywords occurs in the lower-cased description. -/
def categorizeTransaction (desc : List Char) : Option String :=
  (categoryKeywords.find? (fun p =>
    p.2.any (fun k => containsSub k.data (jsToLower desc)))).map (·.1)

example : categorizeTransaction ("STARBUCKS COFFEE MUMBAI".data) = some "food" := by
  decide
example : categorizeTransaction ("Transaction".data) = none := by decide

/-! ## Description cleaning (`parseSingleTransaction`, lines 302-342) -/

/-- Anchored single replace of `^description:\s*` with `/i`. -/
def stripDescLabel (l : List Char) : List Char :=
  match matchLitCI ("description:".data) l with
  | some r => (munch0 isSpaceJS r).2
  | none => l

/-- Global regex replace: scan left to right; where `step` matches (returning
the rest after the match) splice in `repl` and continue after the match,
otherwise keep one character and move on.  Every pattern used consumes at
least one character, so fuel `l.length` suffices. -/
def gsubAux (step : List Char → Option (List Char)) (repl : List Char) :
    Nat → List Char → List Char
  | _, [] => []
  | 0, l => l
  | fuel + 1, c :: t =>
    match step (c :: t) with
    | some rest => repl ++ gsubAux step repl fuel rest
    | none => c :: gsubAux step repl fuel t

/-- Entry point of the global replace. -/
def gsub (step : List Char → Option (List Char)) (repl : List Char)
    (l : List Char) : List Char :=
  gsubAux step repl l.length l

/-- The `txn\d+` with `/gi`. -/
def stepTxn (l : List Char) : Option (List Char) :=
  match matchLitCI ("txn".data) l with
  | some r => (munch1 Char.isDigit r).map (·.2)
  | none => none

/-- The `\d{4}-\d{2}-\d{2}` with `/g`. -/
def stepISO (l : List Char) : Option (List Char) :=
  (matchISODate l).map (·.2)

/-- The `₹[\d,]+(?:\.\d{2})?` with `/g`. -/
def stepRupee (l : List Char) : Option (List Char) :=
  match l with
  | '₹' :: r => (capUnsigned r).map (·.2)
  | _ => none

/-- The `Rs\.?\s*[\d,]+(?:\.\d{2})?` with `/gi`. -/
def stepRs (l : List Char) : Option (List Char) :=
  match matchLitCI ("Rs".data) l with
  | some r1 =>
    match r1 with
    | '.' :: r2 =>
      match capUnsigned (munch0 isSpaceJS r2).2 with
      | some p => some p.2
      | none => (capUnsigned (munch0 isSpaceJS r1).2).map (·.2)
    | _ => (capUnsigned (munch0 isSpaceJS r1).2).map (·.2)
  | none => none

/-- The `\s+(?:Dr|Cr|debit|credit|debited|credited)\s*` with `/gi` (ordered
alternation: `debit` is tried before `debited`, as in JS). -/
def stepTypeWord (l : List Char) : Option (List Char) :=
  match munch1 isSpaceJS l with
  | some (_, r1) =>
    match tryLitsCI ["Dr", "Cr", "debit", "credit", "debited", "credited"] r1 with
    | some (_, r2) => some (munch0 isSpaceJS r2).2
    | none => none
  | none => none

/-- The `Bal\s+[\d,]+(?:\.\d{2})?` with `/gi`. -/
def stepBal (l : List Char) : Option (List Char) :=
  match matchLitCI ("Bal".data) l with
  | some r1 =>
    match munch1 isSpaceJS r1 with
    | some (_, r2) => (capUnsigned r2).map (·.2)
    | none => none
  | none => none

/-- The `Order\s+#[\d-]+` with `/gi`. -/
def stepOrder (l : List Char) : Option (List Char) :=
  match matchLitCI ("Order".data) l with
  | some r1 =>
    match munch1 isSpaceJS r1 with
    | some (_, r2) =>
      match r2 with
      | '#' :: r3 => (munch1 (fun c => c.isDigit || c = '-') r3).map (·.2)
      | _ => none
    | none => none
  | none => none

/-- The `[*→]` with `/g`. -/
def stepSpecial (l : List Char) : Option (List Char) :=
  match l with
  | c :: r => if c = '*' || c = '→' then some r else none
  | [] => none

/-- The `\s+` with `/g`. -/
def stepWs (l : List Char) : Option (List Char) :=
  (munch1 isSpaceJS l).map (·.2)

/-- The replace chain of lines 326-337, in source order, ending with the
final `trim`. -/
def cleanDescription (l : List Char) : List Char :=
  let d := stripDescLabel l
  let d := gsub stepTxn [] d
  let d := gsub stepISO [] d
  let d := gsub stepRupee [] d
  let d := gsub stepRs [] d
  let d := gsub stepTypeWord [' '] d
  let d := gsub stepBal [] d
  let d := gsub stepOrder [] d
  let d := gsub stepSpecial [' '] d
  let d := gsub stepWs [' '] d
  jsTrim d

/-- The line filter of lines 307-320: drop pure metadata lines, keep a
`description:` line only when text follows the colon, keep other non-empty
lines. -/
def descLineKeep (line : List Char) : Bool :=
  let lower := jsToLower line
  if startsWithList ("date:".data) lower then false
  else if startsWithList ("amount:".data) lower then false
  else if startsWithList ("balance".data) lower then false
  else if startsWithList ("available balance".data) lower then false
  else if (matchSlashDate line).isSome then false
  else if startsWithList ("description:".data) lower then
    let i : Nat :=
      match line.findIdx? (· = ':') with
      | some j => j + 1
      | none => 0
    decide (0 < (jsTrim (line.drop i)).length)
  else decide (0 < line.length)

example : cleanDescription (stripDescLabel ("Description: STARBUCKS COFFEE MUMBAI".data)) =
    "STARBUCKS COFFEE MUMBAI".data := by decide

/-! ## Record assembly, schema validation and batch functions -/

/-- The `ParsedTransaction` output record. -/
structure ParsedTransaction where
  date : JsDate
  description : String
  amount : ℚ
  type : TxnType
  category : Option String
  balance : Option ℚ
  confidence : ℚ
deriving DecidableEq

/-- The JavaScript expression `balance || undefined`: `0` (and the
unreachable `NaN`) are falsy, so a zero extracted balance is dropped. -/
def truthyBalance : Option ℚ → Option ℚ
  | some b => if b = 0 then none else some b
  | none => none

/-- The `parseSingleTransaction` of the source. -/
def parseSingleTransaction (block : List Char) : Option ParsedTransaction :=
  if jsTrim block = [] then none
  else
    match parseDate block with
    | none => none
    | some date =>
      match parseAmount block with
      | none => none
      | some amountData =>
        let lines := (splitOn '\n' block).map jsTrim
        let descLines := lines.filter descLineKeep
        let cleaned := cleanDescription (joinSpace descLines)
        let description :=
          if cleaned.isEmpty || cleaned.length < 2 then ("Transaction".data)
          else cleaned
        some {
          date := date
          description := String.mk (jsTrim description)
          amount := amountData.amount
          type := determineTransactionType block
          category := categorizeTransaction description
          balance := truthyBalance (extractBalance block)
          confidence := amountData.confidence }

/-- The `zod` schema `transactionSchema` as a boolean check: non-empty
description, strictly positive amount, confidence within `[0, 1]`; the date,
type, category and balance fields are typed by construction.  `safeParse`
returns the record unchanged on success. -/
def transactionSchemaCheck (t : ParsedTransaction) : Bool :=
  decide (1 ≤ t.description.length) && decide (0 < t.amount) &&
    decide (0 ≤ t.confidence) && decide (t.confidence ≤ 1)

/-- Regex split on `\n\s*\n` at one position: a newline, then a greedy,
backtracking run of whitespace whose last newline is taken, then the closing
newline; returns the rest after the separator. -/
def blankSepAt (l : List Char) : Option (List Char) :=
  match l with
  | '\n' :: r =>
    let run := r.takeWhile isSpaceJS
    match (run.reverse.findIdx? (· = '\n')).map (fun i => run.length - 1 - i) with
    | some j => some (r.drop (j + 1))
    | none => none
  | _ => none

/-- Fuelled scanner for `String.prototype.split(/\n\s*\n/)`. -/
def splitBlocksAux : Nat → List Char → List Char → List (List Char)
  | _, acc, [] => [acc.reverse]
  | 0, acc, l => [acc.reverse ++ l]
  | fuel + 1, acc, c :: t =>
    match blankSepAt (c :: t) with
    | some rest => acc.reverse :: splitBlocksAux fuel [] rest
    | none => splitBlocksAux fuel (c :: acc) t

/-- The `text.split(/\n\s*\n/)`. -/
def splitBlocks (l : List Char) : List (List Char) :=
  splitBlocksAux l.length [] l

example : splitBlocks ("a\n\n\nb".data) = ["a".data, "b".data] := by decide
example : splitBlocks ("   \n\n   ".data) = ["   ".data, "   ".data] := by decide

/-- The `parseTransactionText` of the source: empty input short-circuits, blocks
are parsed independently and only schema-valid records are kept, in block
order. -/
def parseTransactionText (text : String) : List ParsedTransaction :=
  if text.data.isEmpty then []
  else
    (splitBlocks text.data).filterMap (fun b =>
      match parseSingleTransaction b with
      | some t => if transactionSchemaCheck t then some t else none
      | none => none)

/-- The `calculateBatchConfidence` of the source: mean of the per-record
confidences, times 0.9 for a single-record batch, capped at 1; 0 for an
empty batch. -/
def calculateBatchConfidence (ts : List ParsedTransaction) : ℚ :=
  if ts.length = 0 then 0
  else
    let avgConfidence :=
      qDiv (ts.foldl (fun s t => qAdd s t.confidence) 0) (ts.length : ℚ)
    let confidence :=
      if ts.length = 1 then qMul avgConfidence (mkRat 9 10) else avgConfidence
    qMin confidence 1

/-- The result shape of `parseTransactionsWithFallbacks`. -/
structure ParseOutcome where
  transactions : List ParsedTransaction
  confidence : ℚ
  parseMethod : String
deriving DecidableEq

/-- The `parseTransactionsWithFallbacks` of the source: standard parse first; if
it yields nothing and the input contains a comma, each comma-containing line
with at least three comma-separated parts is tried as `date, amount,
description` with fixed confidence 0.75; otherwise the failed outcome. -/
def parseTransactionsWithFallbacks (text : String) : ParseOutcome :=
  let transactions := parseTransactionText text
  if 0 < transactions.length then
    ⟨transactions, calculateBatchConfidence transactions, "standard"⟩
  else
    let fallback :=
      if containsSub [','] text.data then
        ((splitOn '\n' text.data).filter (fun line => containsSub [','] line)).filterMap
          (fun row =>
            match splitOn ',' row with
            | p0 :: p1 :: p2 :: _ =>
              match parseDate p0, parseAmount p1 with
              | some date, some amount =>
                some {
                  date := date
                  description :=
                    (if (jsTrim p2).isEmpty then ("Parsed Transaction".data)
                     else jsTrim p2).asString
                  amount := amount.amount
                  type := determineTransactionType row
                  category := none
                  balance := none
                  confidence := mkRat 3 4 }
              | _, _ => none
            | _ => none)
      else []
    if 0 < fallback.length then
      ⟨fallback, calculateBatchConfidence fallback, "csv_fallback"⟩
    else ⟨[], 0, "failed"⟩

/-! ## Structural lemmas about the pipeline -/

theorem goAmount_spec (ms : List (List Char → Option (List Char × List Char)))
    (l : List Char) (a : AmountData) (h : goAmount ms l = some a) :
    0 ≤ a.amount ∧ a.confidence = mkRat 19 20 := by
  induction ms with
  | nil => simp [goAmount] at h
  | cons m ms ih =>
    rw [goAmount] at h
    split at h
    · split at h
      · cases h
        exact ⟨jsAbs_nonneg _, rfl⟩
      · exact ih h
    · exact ih h

theorem parseAmount_spec (l : List Char) (a : AmountData)
    (h : parseAmount l = some a) : 0 ≤ a.amount ∧ a.confidence = mkRat 19 20 :=
  goAmount_spec _ l a h

theorem truthyBalance_ne_zero (o : Option ℚ) (b : ℚ)
    (h : truthyBalance o = some b) : b ≠ 0 := by
  match o with
  | none => simp [truthyBalance] at h
  | some c =>
    rw [truthyBalance] at h
    split at h
    · simp at h
    · cases h
      assumption

theorem parseSingleTransaction_spec (blk : List Char) (t : ParsedTransaction)
    (h : parseSingleTransaction blk = some t) :
    ∃ a, parseAmount blk = some a ∧ t.amount = a.amount ∧
      t.confidence = a.confidence ∧
      t.balance = truthyBalance (extractBalance blk) := by
  rw [parseSingleTransaction] at h
  split at h
  · simp at h
  · split at h
    · simp at h
    · split at h
      · simp at h
      · rename_i amountData _
        refine ⟨amountData, by assumption, ?_⟩
        cases h
        exact ⟨rfl, rfl, rfl⟩

theorem schemaCheck_amount_pos (t : ParsedTransaction)
    (h : transactionSchemaCheck t = true) : 0 < t.amount := by
  simp only [transactionSchemaCheck, Bool.and_eq_true, decide_eq_true_eq] at h
  exact h.1.1.2

theorem mem_parseTransactionText (text : String) (r : ParsedTransaction)
    (h : r ∈ parseTransactionText text) :
    transactionSchemaCheck r = true ∧
      ∃ b, parseSingleTransaction b = some r := by
  rw [parseTransactionText] at h
  split at h
  · simp at h
  · obtain ⟨b, _, heq⟩ := List.mem_filterMap.mp h
    split at heq
    · rename_i t hpsx
      split at heq
      · cases heq
        exact ⟨by assumption, b, hpsx⟩
      · simp at heq
    · simp at heq

theorem mem_withFallbacks (text : String) (r : ParsedTransaction)
    (h : r ∈ (parseTransactionsWithFallbacks text).transactions) :
    r ∈ parseTransactionText text ∨
      (∃ p1 a, parseAmount p1 = some a ∧ r.amount = a.amount ∧
        r.balance = none ∧ r.confidence = mkRat 3 4) := by
  rw [parseTransactionsWithFallbacks] at h
  split at h
  · exact Or.inl h
  · dsimp only at h
    split at h
    · split at h
      · obtain ⟨row, _, heq⟩ := List.mem_filterMap.mp h
        split at heq
        · split at heq
          · cases heq
            exact Or.inr ⟨_, _, by assumption, rfl, rfl, rfl⟩
          · simp at heq
        · simp at heq
      · simp at h
    · simp at h

theorem firstMatch_isSome_of_suffix {α : Type} (m : List Char → Option α)
    (l s : List Char) (hs : s <:+ l) (h : (m s).isSome = true) :
    (firstMatch m l).isSome = true := by
  induction l with
  | nil =>
    obtain ⟨t, ht⟩ := hs
    have : s = [] := by
      cases List.append_eq_nil.mp ht
      assumption
    rw [firstMatch]
    rw [this] at h
    exact h
  | cons c t ih =>
    rcases List.suffix_cons_iff.mp hs with h1 | h2
    · subst h1
      rw [firstMatch]
      split
      · rfl
      · rename_i hnone
        rw [hnone] at h
        simp at h
    · rw [firstMatch]
      split
      · rfl
      · exact ih h2

theorem matchNegNum_isSome (c : Char) (r : List Char) (hc : c.isDigit = true) :
    (matchNegNum ('-' :: c :: r)).isSome = true := by
  rw [matchNegNum, capNumGroups]
  simp only [digitsUpTo, hc, if_true]
  simp

theorem foldl_qAdd_eq (ts : List ParsedTransaction) (acc : ℚ) :
    ts.foldl (fun s t => qAdd s t.confidence) acc =
      acc + (ts.map ParsedTransaction.confidence).sum := by
  induction ts generalizing acc with
  | nil => simp
  | cons t ts ih =>
    rw [List.foldl_cons, ih, qAdd_eq, List.map_cons, List.sum_cons]
    ring

theorem mkRat_19_20 : (mkRat 19 20 : ℚ) = 19 / 20 := by
  norm_num [Rat.mkRat_eq_div]

theorem mkRat_9_10 : (mkRat 9 10 : ℚ) = 9 / 10 := by
  norm_num [Rat.mkRat_eq_div]

theorem mkRat_3_4 : (mkRat 3 4 : ℚ) = 3 / 4 := by
  norm_num [Rat.mkRat_eq_div]

/-! ## Concrete inputs shared by the claims -/

/-- Scenario A of the specification. -/
def scenarioA : String :=
  "Date: 11 Dec 2025\nDescription: STARBUCKS COFFEE MUMBAI\nAmount: -420.00\nBalance after transaction: 18,420.50"

/-- The record the parser produces for Scenario A. -/
def recA : ParsedTransaction :=
  { date := ⟨2025, 12, 11⟩
    description := "STARBUCKS COFFEE MUMBAI"
    amount := 420
    type := TxnType.debit
    category := some "food"
    balance := some (mkRat 36841 2)
    confidence := mkRat 19 20 }

/-- Scenario E of the specification. -/
def scenarioE : String := "2025-12-11, -420, STARBUCKS"

/-- A block with an out-of-range day in the month-name date format. -/
def inputDay32 : String := "32 Dec 2025\nAmount: 420.00"

/-- A block whose stated balance is negative. -/
def inputNegBalance : String := "Date: 11 Dec 2025\nAmount: 420.00\nBalance: -500.00"

/-- A comma-separated line whose labelled amount is zero: the standard path
drops it at schema validation, the CSV fallback emits it. -/
def inputZeroCsv : String := "2025-12-11, Amount: 0.00, STARBUCKS"

/-- A block with balanced (zero) keyword scores and no minus sign. -/
def tieText : String := "Deposit: $100"

/-- A block with one debit keyword and no credit keyword. -/
def spentText : String := "Spent on coffee"

/-- A block containing an ISO date and two credit keywords. -/
def isoCredText : String := "2025-12-10 credited received"

/-! ## Claim C1 -/

/-- C1 counterexample: in the block `"Deposit: $100"` neither minus-sign
short-circuit fires and the keyword scores tie at zero, yet the classifier
returns `credit`, not the `debit` the claim asserts for ties. -/
theorem c1_counterexample :
    testAmountDash (tieText.data) = false ∧
    testNegNum (tieText.data) = false ∧
    creditScore (tieText.data) = debitScore (tieText.data) ∧
    determineTransactionType (tieText.data) = TxnType.credit := by
  decide

/-- C1 (amended): when neither minus-sign short-circuit fires, the classifier
returns `debit` exactly when the debit-keyword hit count strictly exceeds the
credit-keyword hit count; ties and the zero-zero case resolve to `credit`. -/
theorem c1_tie_resolves_to_credit (l : List Char)
    (h1 : testAmountDash l = false) (h2 : testNegNum l = false) :
    determineTransactionType l = TxnType.debit ↔ creditScore l < debitScore l := by
  rw [determineTransactionType, h1, h2]
  by_cases h : creditScore l < debitScore l <;> simp [h]

/-- C1 witness: the amended equivalence at the concrete block
`"Spent on coffee"`. -/
theorem c1_witness :
    determineTransactionType (spentText.data) = TxnType.debit ↔
      creditScore (spentText.data) < debitScore (spentText.data) :=
  c1_tie_resolves_to_credit (spentText.data) (by decide) (by decide)

/-! ## Claim C2 -/

/-- C2 counterexample: on Scenario E the parser returns zero records and
method `failed`, not one `csv_fallback` record as claimed. -/
theorem c2_counterexample :
    (parseTransactionsWithFallbacks scenarioE).transactions = [] ∧
    (parseTransactionsWithFallbacks scenarioE).parseMethod = "failed" := by
  decide

/-- C2 (amended): on Scenario E the standard path yields zero records and the
CSV fallback splits the line on commas and parses part 0 as a date, but
part 1 (`" -420"`) matches no amount pattern, so the fallback also emits
nothing and the result is an empty list, confidence 0, method `failed`. -/
theorem c2_scenario_e_fails :
    parseTransactionText scenarioE = [] ∧
    parseDate ("2025-12-11".data) = some ⟨2025, 12, 11⟩ ∧
    parseAmount (" -420".data) = none ∧
    parseTransactionsWithFallbacks scenarioE = ⟨[], 0, "failed"⟩ := by
  decide

/-! ## Claim C3 -/

/-- C3: contrary to the claim (and to the intent of the source's dead
`try/catch`), a matched date with day 32 does not fail construction: the
`Date` constructor rolls it over to 2026-01-01 and a record is emitted. -/
theorem c3_day32_emits_record :
    parseDate ("32 Dec 2025".data) = some ⟨2026, 1, 1⟩ ∧
    parseTransactionText inputDay32 =
      [{ date := ⟨2026, 1, 1⟩
         description := "32 Dec 2025"
         amount := 420
         type := TxnType.credit
         category := none
         balance := none
         confidence := mkRat 19 20 }] := by
  decide

/-! ## Claim C4 -/

/-- C4 counterexample: a block stating `Balance: -500.00` produces a record
whose balance is the negative value −500, refuting `balance ≥ 0`. -/
theorem c4_counterexample :
    (parseTransactionsWithFallbacks inputNegBalance).transactions.map
      ParsedTransaction.balance = [some (-500)] ∧
    ((-500 : ℚ) < 0) := by
  decide

/-- C4 (amended): whenever the optional balance field of an emitted record is
present its value is nonzero (a zero extracted balance is dropped by the
JavaScript falsiness check); negative balances are passed through unchanged. -/
theorem c4_balance_nonzero (text : String) (r : ParsedTransaction) (b : ℚ)
    (h : r ∈ (parseTransactionsWithFallbacks text).transactions)
    (hb : r.balance = some b) : b ≠ 0 := by
  rcases mem_withFallbacks text r h with hstd | ⟨p1, a, _, _, hbal, _⟩
  · obtain ⟨-, blk, hpsx⟩ := mem_parseTransactionText text r hstd
    obtain ⟨a, -, -, -, hbal⟩ := parseSingleTransaction_spec blk r hpsx
    rw [hbal] at hb
    exact truthyBalance_ne_zero _ _ hb
  · rw [hbal] at hb
    simp at hb

/-- C4 witness: the amended invariant at Scenario A, whose record carries
balance 18420.50 ≠ 0. -/
theorem c4_witness : (mkRat 36841 2 : ℚ) ≠ 0 :=
  c4_balance_nonzero scenarioA recA (mkRat 36841 2) (by decide) (by decide)

/-! ## Claim C5 -/

/-- C5: the batch confidence is the arithmetic mean of the per-record
confidences, multiplied by 0.9 when the batch has exactly one record, clamped
to at most 1, and exactly 0 for an empty record list. -/
theorem c5_batch_confidence (ts : List ParsedTransaction) :
    calculateBatchConfidence ts =
      if ts.length = 0 then 0
      else
        min (((ts.map ParsedTransaction.confidence).sum / (ts.length : ℚ)) *
          (if ts.length = 1 then (9 : ℚ) / 10 else 1)) 1 := by
  simp only [calculateBatchConfidence]
  split
  · rfl
  · rw [qMin_eq, foldl_qAdd_eq, zero_add, qDiv_eq]
    congr 1
    split
    · rw [qMul_eq, mkRat_9_10]
    · rw [mul_one]

/-! ## Claim C6 -/

/-- C6: Scenario A yields exactly one record with date 2025-12-11, a
description containing `STARBUCKS`, amount 420, type debit, category food,
balance 18420.50 and confidence 0.95. -/
theorem c6_scenario_a :
    parseTransactionText scenarioA = [recA] ∧
    containsSub ("STARBUCKS".data) (recA.description.data) = true ∧
    recA.date = ⟨2025, 12, 11⟩ ∧
    recA.amount = 420 ∧
    recA.type = TxnType.debit ∧
    recA.category = some "food" ∧
    recA.balance = some (18420.50 : ℚ) ∧
    recA.confidence = (0.95 : ℚ) := by
  refine ⟨by decide, by decide, by decide, by decide, by decide, by decide, ?_, ?_⟩
  · show some (mkRat 36841 2) = some (18420.50 : ℚ)
    norm_num [Rat.mkRat_eq_div]
  · show (mkRat 19 20 : ℚ) = (0.95 : ℚ)
    norm_num [Rat.mkRat_eq_div]

/-! ## Claim C7 -/

/-- C7: every record the parser emits (standard path or fallback) has a
non-negative amount, and every successful amount extraction returns a
non-negative magnitude (the absolute value of the parsed capture) with
confidence exactly 0.95. -/
theorem c7_amount_nonneg :
    (∀ (text : String) (r : ParsedTransaction),
      r ∈ (parseTransactionsWithFallbacks text).transactions → 0 ≤ r.amount) ∧
    (∀ (l : List Char) (a : AmountData), parseAmount l = some a →
      0 ≤ a.amount ∧ a.confidence = (19 : ℚ) / 20) := by
  constructor
  · intro text r h
    rcases mem_withFallbacks text r h with hstd | ⟨p1, a, hpa, hamt, -, -⟩
    · exact le_of_lt (schemaCheck_amount_pos r (mem_parseTransactionText text r hstd).1)
    · rw [hamt]
      exact (parseAmount_spec p1 a hpa).1
  · intro l a h
    obtain ⟨h1, h2⟩ := parseAmount_spec l a h
    exact ⟨h1, by rw [h2, mkRat_19_20]⟩

/-- C7 witness: the invariant applied to the record of Scenario A. -/
theorem c7_witness : 0 ≤ recA.amount :=
  c7_amount_nonneg.1 scenarioA recA (by decide)

/-! ## Claim C8 -/

/-- C8: empty, whitespace-only and non-matching inputs all produce an empty
record list with batch confidence 0 and parse method `failed` (the embedding
is total, so no exception can propagate). -/
theorem c8_degenerate_inputs :
    parseTransactionsWithFallbacks ("") = ⟨[], 0, "failed"⟩ ∧
    parseTransactionsWithFallbacks ("   \n\n   ") = ⟨[], 0, "failed"⟩ ∧
    parseTransactionsWithFallbacks ("This is random text") = ⟨[], 0, "failed"⟩ := by
  decide

/-! ## Claim C9 -/

/-- C9: any text containing a hyphen immediately followed by a digit (for
example the hyphens of an ISO date) makes the classifier short-circuit to
`debit` before keyword scoring. -/
theorem c9_hyphen_digit_debit (l : List Char)
    (h : ∃ pre c post, l = pre ++ '-' :: c :: post ∧ c.isDigit = true) :
    determineTransactionType l = TxnType.debit := by
  obtain ⟨pre, c, post, hl, hc⟩ := h
  have hsuf : ('-' :: c :: post) <:+ l := ⟨pre, hl.symm⟩
  have ht : testNegNum l = true := by
    rw [testNegNum]
    exact firstMatch_isSome_of_suffix matchNegNum l _ hsuf (matchNegNum_isSome c post hc)
  simp [determineTransactionType, ht]

/-- C9 witness: `"2025-12-10 credited received"` contains credit keywords and
no negative amount, yet is classified as debit via the hyphen of its date. -/
theorem c9_witness : determineTransactionType (isoCredText.data) = TxnType.debit :=
  c9_hyphen_digit_debit (isoCredText.data)
    ⟨"2025".data, '1', "2-10 credited received".data, by decide, by decide⟩

/-! ## Claim C10 -/

/-- C10: every record of the standard path has a strictly positive amount
(schema validation suppresses the rest), while the CSV fallback bypasses the
schema and can emit a record with amount 0. -/
theorem c10_schema_vs_fallback :
    (∀ (text : String) (r : ParsedTransaction),
      r ∈ parseTransactionText text → 0 < r.amount) ∧
    ((parseTransactionsWithFallbacks inputZeroCsv).parseMethod = "csv_fallback" ∧
      (parseTransactionsWithFallbacks inputZeroCsv).transactions.map
        ParsedTransaction.amount = [0]) := by
  refine ⟨?_, by decide, by decide⟩
  intro text r h
  exact schemaCheck_amount_pos r (mem_parseTransactionText text r h).1

/-- C10 witness: the standard-path positivity applied to Scenario A. -/
theorem c10_witness : 0 < recA.amount :=
  c10_schema_vs_fallback.1 scenarioA recA (by decide)
